import Mathlib

/- Shallow embedding of the FlowState indoor air-quality simulator
   (backend/simulation.js, backend/optimizer.js, backend/standards.js).

   2D arrays are embedded as total functions of row and column index; the
   simulator only ever reads indices inside the 28 x 44 grid, so values at
   out-of-range indices never influence any result it returns.

   JavaScript numbers are modelled as exact scalars: the definitions that do
   not involve Math.exp are polymorphic over a linear ordered field (and so
   are computable, e.g. at ℚ), while the occupant-emission phase and the
   full simulator use Real.exp and are stated at ℝ. -/

set_option linter.unusedSectionVars false

namespace FlowState

variable {α : Type} [LinearOrderedField α] [FloorRing α]

/-- Source (simulation.js): clamp(v, a, b) = Math.max(a, Math.min(b, v)). -/
def clamp (v a b : α) : α := max a (min b v)

/-- Source (simulation.js): lerp(a, b, t) = a + (b - a) * t. -/
def lerp (a b t : α) : α := a + (b - a) * t

/-- A 2D scalar field, row index first: `f y x` embeds `field[y][x]`. -/
def Field2 (α : Type) : Type := ℕ → ℕ → α

/-- Source: make2D(rows, cols, fill) builds a rows x cols array of fill. -/
def make2D (fill : α) : Field2 α := fun _ _ => fill

/-- Source: sampleScalar(field, x, y), bilinear sampling with edge clamping.
    The parameters rows and cols stand for field.length and field[0].length.
    Math.floor on the clamped (nonnegative) coordinate is Int.toNat of the
    integer floor; clamp(x0 + 1, 0, cols - 1) on nonnegative integers is
    min (x0 + 1) (cols - 1). -/
def sampleScalar (rows cols : ℕ) (field : Field2 α) (x y : α) : α :=
  let xc := clamp x 0 ((cols : α) - 1)
  let yc := clamp y 0 ((rows : α) - 1)
  let x0 : ℕ := (⌊xc⌋).toNat
  let y0 : ℕ := (⌊yc⌋).toNat
  let x1 : ℕ := min (x0 + 1) (cols - 1)
  let y1 : ℕ := min (y0 + 1) (rows - 1)
  let tx : α := xc - (x0 : α)
  let ty : α := yc - (y0 : α)
  let v00 := field y0 x0
  let v10 := field y0 x1
  let v01 := field y1 x0
  let v11 := field y1 x1
  lerp (lerp v00 v10 tx) (lerp v01 v11 tx) ty

/-- Source: const rows = 28 (grid resolution inside simulate). -/
def rows : ℕ := 28

/-- Source: const cols = 44 (grid resolution inside simulate). -/
def cols : ℕ := 44

/-- Source: pxToGX(px) = (px / width) * (cols - 1). -/
def pxToGX (width px : α) : α := px / width * ((cols : α) - 1)

/-- Source: pxToGY(px) = (px / height) * (rows - 1). -/
def pxToGY (height px : α) : α := px / height * ((rows : α) - 1)

/-- Source: const STEPS = 40. -/
def STEPS : ℕ := 40

/-- Source: const DIFF = 0.12. -/
def DIFF : α := 0.12

/-- Source: const ADVECT = 0.85. -/
def ADVECT : α := 0.85

/-- Source: const FAN_STRENGTH = 2.8. -/
def FAN_STRENGTH : α := 2.8

/-- Source: const WINDOW_FLOW = 2.2. -/
def WINDOW_FLOW : α := 2.2

/-- Source: const VENT_PULL = 0.08. -/
def VENT_PULL : α := 0.08

/-- Source: const CO2_EMIT = 18. -/
def CO2_EMIT : α := 18

/-- Source: const VIRUS_EMIT = 1.0. -/
def VIRUS_EMIT : α := 1

/-- Source: const HEAT_EMIT = 0.04. -/
def HEAT_EMIT : α := 0.04

/-- Source (standards.js): CO2_LIMITS.outdoor = 420. -/
def CO2_LIMITS_outdoor : α := 420

/-- Source: const outdoorVirus = 0 (inside simulate). -/
def outdoorVirus : α := 0

/-- A fan. strength = none models a missing or non-finite strength; the
    positions model `f.x || 0` and `f.y || 0`, which is the identity on every
    present finite value once 0 maps to 0. -/
structure Fan (α : Type) where
  x : α
  y : α
  strength : Option α

/-- A window. w = none and openF = none model missing or non-finite values.
    The source field for openF is named `open`, a Lean keyword. -/
structure Window (α : Type) where
  x : α
  y : α
  w : Option α
  openF : Option α

/-- An occupant. intensity = none models a missing or non-finite intensity. -/
structure Occupant (α : Type) where
  x : α
  y : α
  intensity : Option α

/-- Source: Number.isFinite(f.strength) ? f.strength : 1.0. -/
def fanStrength (f : Fan α) : α := f.strength.getD 1

/-- Source: Number.isFinite(win.open) ? clamp(win.open, 0, 1) : 1.0
    (this expression appears verbatim in computeVelocity and in
    applyVentilation). -/
def windowOpen (win : Window α) : α :=
  match win.openF with
  | some v => clamp v 0 1
  | none => 1

/-- Source: (Number.isFinite(win.w) ? win.w : 120) / width * (cols - 1) * 0.5
    (this expression appears verbatim in computeVelocity and in
    applyVentilation). -/
def windowHalf (width : α) (win : Window α) : α :=
  (win.w.getD 120) / width * ((cols : α) - 1) * 0.5

/-- Source: Number.isFinite(p.intensity) ? clamp(p.intensity, 0.2, 3.0) : 1.0. -/
def occIntensity (p : Occupant α) : α :=
  match p.intensity with
  | some v => clamp v 0.2 3.0
  | none => 1

/-- Source: the wall-proximity direction choice in computeVelocity:
    m = Math.min(distLeft, distRight, distTop, distBottom) followed by the
    if / else-if chain that checks left, right, top, bottom in that order. -/
def windowDir (width height wx wy : α) : α × α :=
  let distLeft := wx
  let distRight := width - wx
  let distTop := wy
  let distBottom := height - wy
  let m := min (min (min distLeft distRight) distTop) distBottom
  if m = distLeft then (1, 0)
  else if m = distRight then (-1, 0)
  else if m = distTop then (0, 1)
  else (0, -1)

/-- A velocity field: the pair (vx, vy). -/
def VecField (α : Type) : Type := Field2 α × Field2 α

/-- Source: the fan body of computeVelocity: a pseudo-radial push away from
    the fan center with shared denominator d2 = dx*dx + dy*dy + 6, added to
    both velocity components. -/
def addFan (width height : α) (v : VecField α) (f : Fan α) : VecField α :=
  let fx := pxToGX width f.x
  let fy := pxToGY height f.y
  let strength := fanStrength f
  ( fun y x =>
      let dx := (x : α) - fx
      let dy := (y : α) - fy
      let d2 := dx * dx + dy * dy + 6
      v.1 y x + dx / d2 * FAN_STRENGTH * strength,
    fun y x =>
      let dx := (x : α) - fx
      let dy := (y : α) - fy
      let d2 := dx * dx + dy * dy + 6
      v.2 y x + dy / d2 * FAN_STRENGTH * strength )

/-- Source: the window body of computeVelocity: inside the band
    |dx| ≤ half and |dy| ≤ 2.2, add the nearest-wall direction scaled by
    WINDOW_FLOW and the effective open fraction. -/
def addWindow (width height : α) (v : VecField α) (win : Window α) : VecField α :=
  let wOpen := windowOpen win
  let dir := windowDir width height win.x win.y
  let gx := pxToGX width win.x
  let gy := pxToGY height win.y
  let half := windowHalf width win
  ( fun y x =>
      if |(x : α) - gx| ≤ half ∧ |(y : α) - gy| ≤ 2.2 then
        v.1 y x + dir.1 * WINDOW_FLOW * wOpen
      else v.1 y x,
    fun y x =>
      if |(x : α) - gx| ≤ half ∧ |(y : α) - gy| ≤ 2.2 then
        v.2 y x + dir.2 * WINDOW_FLOW * wOpen
      else v.2 y x )

/-- Source: computeVelocity(): starting from zero fields, fold the fan
    contributions, then the window contributions. -/
def computeVelocity (width height : α) (fans : List (Fan α))
    (windows : List (Window α)) : VecField α :=
  windows.foldl (addWindow width height)
    (fans.foldl (addFan width height) (make2D 0, make2D 0))

/-- Source: diffuse(field): blend each cell toward the average of its four
    edge-clamped orthogonal neighbours by DIFF. Natural-number subtraction
    makes y - 1 at y = 0 equal 0, exactly the source clamp(y - 1, 0, rows-1). -/
def diffuse (field : Field2 α) : Field2 α := fun y x =>
  let c := field y x
  let up := field (min (y - 1) (rows - 1)) x
  let dn := field (min (y + 1) (rows - 1)) x
  let lf := field y (min (x - 1) (cols - 1))
  let rt := field y (min (x + 1) (cols - 1))
  let avgN := (up + dn + lf + rt) * 0.25
  lerp c avgN DIFF

/-- Source: advect(field, vx, vy): semi-Lagrangian backward trace by the
    cell velocity scaled with ADVECT, then bilinear sampling. -/
def advect (field vx vy : Field2 α) : Field2 α := fun y x =>
  let ux := vx y x
  let uy := vy y x
  let backX := (x : α) - ux * ADVECT
  let backY := (y : α) - uy * ADVECT
  sampleScalar rows cols field backX backY

/-- The three transported scalar fields of the simulation. -/
structure Fields3 (α : Type) where
  co2 : Field2 α
  virus : Field2 α
  temp : Field2 α

/-- Source: applyVentilation(co2F, virusF, tempF): per window, inside the
    band |dx| ≤ half and |dy| ≤ 2.8, pull co2 and virus toward the outdoor
    baseline with factor k = VENT_PULL * wOpen and temp with factor k * 0.8. -/
def applyVentilation (width height outdoorCO2 outdoorTemp : α)
    (windows : List (Window α)) (fs : Fields3 α) : Fields3 α :=
  windows.foldl (fun fs win =>
    let gx := pxToGX width win.x
    let gy := pxToGY height win.y
    let wOpen := windowOpen win
    let half := windowHalf width win
    let k := VENT_PULL * wOpen
    { co2 := fun y x =>
        if |(x : α) - gx| ≤ half ∧ |(y : α) - gy| ≤ 2.8 then
          lerp (fs.co2 y x) outdoorCO2 k
        else fs.co2 y x,
      virus := fun y x =>
        if |(x : α) - gx| ≤ half ∧ |(y : α) - gy| ≤ 2.8 then
          lerp (fs.virus y x) outdoorVirus k
        else fs.virus y x,
      temp := fun y x =>
        if |(x : α) - gx| ≤ half ∧ |(y : α) - gy| ≤ 2.8 then
          lerp (fs.temp y x) outdoorTemp (k * 0.8)
        else fs.temp y x }) fs

/-- Source: applyOccupants(co2F, virusF, tempF): per occupant, add a
    Gaussian-weighted emission exp(-(dx*dx + dy*dy) / 10) scaled by the
    per-field emission constant and the clamped intensity, at every cell.
    Math.exp is Real.exp, so this phase is stated at ℝ. -/
noncomputable def applyOccupants (width height : ℝ) (occupants : List (Occupant ℝ))
    (fs : Fields3 ℝ) : Fields3 ℝ :=
  occupants.foldl (fun fs p =>
    let px := pxToGX width p.x
    let py := pxToGY height p.y
    let intensity := occIntensity p
    { co2 := fun y x =>
        let dx := (x : ℝ) - px
        let dy := (y : ℝ) - py
        fs.co2 y x + CO2_EMIT * intensity * Real.exp (-(dx * dx + dy * dy) / 10),
      virus := fun y x =>
        let dx := (x : ℝ) - px
        let dy := (y : ℝ) - py
        fs.virus y x + VIRUS_EMIT * intensity * Real.exp (-(dx * dx + dy * dy) / 10),
      temp := fun y x =>
        let dx := (x : ℝ) - px
        let dy := (y : ℝ) - py
        fs.temp y x + HEAT_EMIT * intensity * Real.exp (-(dx * dx + dy * dy) / 10) }) fs

/-- The sanitized local constants of one simulate(...) call: width, height,
    fans, windows, occupants, outdoorCO2, outdoorTemp after the input checks
    at the top of simulate. -/
structure Config where
  width : ℝ
  height : ℝ
  fans : List (Fan ℝ)
  windows : List (Window ℝ)
  occupants : List (Occupant ℝ)
  outdoorCO2 : ℝ
  outdoorTemp : ℝ

/-- Source: the initial fields of simulate: co2 = outdoorCO2 + 600,
    virus = 0.0, temp = 21.0, uniformly. -/
def initState (c : Config) : Fields3 ℝ :=
  { co2 := make2D (c.outdoorCO2 + 600), virus := make2D 0, temp := make2D 21 }

/-- Source: one iteration of the STEPS loop in simulate: recompute the
    velocity, advect all three fields, diffuse all three fields, apply
    occupant sources, apply ventilation sinks, then clamp co2 to
    [outdoorCO2, 5000], virus to [0, 1000] and temp to [-10, 40]. -/
noncomputable def stepSim (c : Config) (s : Fields3 ℝ) : Fields3 ℝ :=
  let v := computeVelocity c.width c.height c.fans c.windows
  let s1 : Fields3 ℝ :=
    { co2 := advect s.co2 v.1 v.2,
      virus := advect s.virus v.1 v.2,
      temp := advect s.temp v.1 v.2 }
  let s2 : Fields3 ℝ :=
    { co2 := diffuse s1.co2, virus := diffuse s1.virus, temp := diffuse s1.temp }
  let s3 := applyOccupants c.width c.height c.occupants s2
  let s4 := applyVentilation c.width c.height c.outdoorCO2 c.outdoorTemp c.windows s3
  { co2 := fun y x => clamp (s4.co2 y x) c.outdoorCO2 5000,
    virus := fun y x => clamp (s4.virus y x) 0 1000,
    temp := fun y x => clamp (s4.temp y x) (-10) 40 }

/-- The fields after t iterations of the simulation loop. -/
noncomputable def stateAfter (c : Config) : ℕ → Fields3 ℝ
  | 0 => initState c
  | t + 1 => stepSim c (stateAfter c t)

/-- One packed grid cell of the returned heatmap. -/
structure Cell where
  co2 : ℝ
  virus : ℝ
  temp : ℝ

/-- The aggregate statistics of a simulation run. -/
structure Stats where
  avgCO2 : ℝ
  maxCO2 : ℝ
  avgVirus : ℝ
  maxVirus : ℝ
  avgTemp : ℝ

/-- The value returned by simulate: grid, downsampled vectors, stats and
    the meta block. -/
structure SimResult where
  grid : List (List Cell)
  vectors : List (ℕ × ℕ × ℝ × ℝ)
  stats : Stats
  metaRows : ℕ
  metaCols : ℕ
  metaOutdoorCO2 : ℝ
  metaOutdoorTemp : ℝ

/-- The row-major enumeration of all grid cells, in the order of the
    aggregation loops of simulate. -/
def cellList : List (ℕ × ℕ) :=
  (List.range rows).flatMap (fun y => (List.range cols).map (fun x => (y, x)))

/-- Source: the running maximum `if (v > maxV) maxV = v` over a list of
    values, starting from 0. -/
noncomputable def maxFold (init : ℝ) (l : List ℝ) : ℝ :=
  l.foldl (fun acc v => if acc < v then v else acc) init

/-- The sum of a field over all grid cells. Real addition is commutative and
    associative, so the row-major accumulation loop of simulate is embedded
    as a finite double sum. -/
noncomputable def gridSum (f : Field2 ℝ) : ℝ :=
  Finset.sum (Finset.range rows) fun y => Finset.sum (Finset.range cols) fun x => f y x

/-- Source: the tail of simulate: run STEPS iterations, pack the grid,
    accumulate sums and maxima, downsample the final velocity field at every
    4th row and column (7 x 11 sample points), and return stats with
    avg = sum / (rows * cols). -/
noncomputable def simulateCore (c : Config) : SimResult :=
  let s := stateAfter c STEPS
  let v := computeVelocity c.width c.height c.fans c.windows
  let cells : ℝ := (rows : ℝ) * (cols : ℝ)
  { grid := (List.range rows).map (fun y => (List.range cols).map (fun x =>
      { co2 := s.co2 y x, virus := s.virus y x, temp := s.temp y x })),
    vectors := (List.range 7).flatMap (fun ky => (List.range 11).map (fun kx =>
      (4 * ky, 4 * kx, v.1 (4 * ky) (4 * kx), v.2 (4 * ky) (4 * kx)))),
    stats :=
      { avgCO2 := gridSum s.co2 / cells,
        maxCO2 := maxFold 0 (cellList.map fun yx => s.co2 yx.1 yx.2),
        avgVirus := gridSum s.virus / cells,
        maxVirus := maxFold 0 (cellList.map fun yx => s.virus yx.1 yx.2),
        avgTemp := gridSum s.temp / cells },
    metaRows := rows,
    metaCols := cols,
    metaOutdoorCO2 := c.outdoorCO2,
    metaOutdoorTemp := c.outdoorTemp }

/-- The raw input of simulate. Option ℝ fields are none when the value is
    missing or non-finite (the Number.isFinite checks of the source); the
    collections model the Array.isArray checks with the list itself. -/
structure SimInput where
  width : Option ℝ
  height : Option ℝ
  fans : List (Fan ℝ)
  windows : List (Window ℝ)
  occupants : List (Occupant ℝ)
  outdoorCO2 : Option ℝ
  outdoorTemp : Option ℝ

/-- Source: the sanitization at the top of simulate: width 800 and height
    500 as defaults, outdoor co2 CO2_LIMITS.outdoor = 420, outdoor temp 10. -/
noncomputable def SimInput.config (i : SimInput) : Config :=
  { width := i.width.getD 800,
    height := i.height.getD 500,
    fans := i.fans,
    windows := i.windows,
    occupants := i.occupants,
    outdoorCO2 := i.outdoorCO2.getD CO2_LIMITS_outdoor,
    outdoorTemp := i.outdoorTemp.getD 10 }

/-- Source: simulate(input): sanitize the input, then run the core. -/
noncomputable def simulate (i : SimInput) : SimResult := simulateCore i.config

/-- The raw input of optimizeFan (optimizer.js). -/
structure OptInput where
  width : Option ℝ
  height : Option ℝ
  windows : List (Window ℝ)
  occupants : List (Occupant ℝ)
  outdoorCO2 : Option ℝ
  outdoorTemp : Option ℝ

/-- Source (optimizer.js): the running best of the trial loop. bestScore =
    none models the initial Infinity sentinel and bestStats = none the
    initial null. -/
structure OptState where
  best : Fan ℝ
  bestScore : Option ℝ
  bestStats : Option Stats

/-- Source: const TRIES = 80. -/
def TRIES : ℕ := 80

/-- Source: fan = \x7b x: Math.random() * width, y: Math.random() * height,
    strength: 1.0 \x7d. The ambient Math.random() stream is the explicit
    parameter rand, consumed two values per trial in call order. -/
def trialFan (width height : ℝ) (rand : ℕ → ℝ) (k : ℕ) : Fan ℝ :=
  { x := rand (2 * k) * width, y := rand (2 * k + 1) * height, strength := some 1 }

/-- Source: the scalar objective of optimizeFan. s.avgTemp is always a
    number here, so the ?? 21 fallback is the identity. -/
noncomputable def scoreOf (s : Stats) : ℝ :=
  s.avgCO2 / 1200 * 1.0 + s.maxCO2 / 2500 * 0.6 + s.avgVirus / 8 * 1.2 +
    s.maxVirus / 25 * 0.9 + |s.avgTemp - 21| * 0.15

/-- Source: the stats of trial k: simulate with the single sampled fan and
    the caller's windows, occupants and outdoor baseline. The width and
    height passed back into simulate are the already-sanitized numbers. -/
noncomputable def trialStats (o : OptInput) (rand : ℕ → ℝ) (k : ℕ) : Stats :=
  (simulate
    { width := some (o.width.getD 800),
      height := some (o.height.getD 500),
      fans := [trialFan (o.width.getD 800) (o.height.getD 500) rand k],
      windows := o.windows,
      occupants := o.occupants,
      outdoorCO2 := o.outdoorCO2,
      outdoorTemp := o.outdoorTemp }).stats

/-- Source: the body of the trial loop: if (score < bestScore) replace the
    running best; score < Infinity is always true, which the none branch
    models. -/
noncomputable def optStep (fanS : Fan ℝ) (score : ℝ) (stats : Stats) (st : OptState) : OptState :=
  match st.bestScore with
  | none => { best := fanS, bestScore := some score, bestStats := some stats }
  | some b =>
      if score < b then { best := fanS, bestScore := some score, bestStats := some stats }
      else st

/-- Source: the full trial loop of optimizeFan, starting from the sentinel
    state best = \x7b x: width/2, y: height/2, strength: 1.0 \x7d,
    bestScore = Infinity, bestStats = null. -/
noncomputable def optimizeFanAux (o : OptInput) (rand : ℕ → ℝ) : OptState :=
  (List.range TRIES).foldl (fun st k =>
    optStep (trialFan (o.width.getD 800) (o.height.getD 500) rand k)
      (scoreOf (trialStats o rand k)) (trialStats o rand k) st)
    { best := { x := o.width.getD 800 / 2, y := o.height.getD 500 / 2, strength := some 1 },
      bestScore := none,
      bestStats := none }

/-- The value returned by optimizeFan. -/
structure OptResult where
  bestFan : Fan ℝ
  score : ℝ
  stats : Option Stats

/-- Source: Number(bestScore.toFixed(3)): rounding to 3 decimal places,
    modelled as round to the nearest multiple of 1/1000. -/
noncomputable def round3 (x : ℝ) : ℝ := (round (x * 1000) : ℤ) / 1000

/-- Source: optimizeFan(input): run the 80 trials and return the best fan,
    the rounded best score and the stats of the winning trial. The loop runs
    at least once, so bestScore is never the Infinity sentinel here and the
    getD default is never taken. -/
noncomputable def optimizeFan (o : OptInput) (rand : ℕ → ℝ) : OptResult :=
  let st := optimizeFanAux o rand
  { bestFan := st.best, score := round3 (st.bestScore.getD 0), stats := st.bestStats }

/- ------------------------------------------------------------------ -/
/- Helper lemmas.                                                     -/
/- ------------------------------------------------------------------ -/

theorem clamp_eq_self (v a b : α) (h1 : a ≤ v) (h2 : v ≤ b) : clamp v a b = v := by
  rw [clamp, min_eq_right h2, max_eq_right h1]

theorem clamp_le_hi (v a b : α) (h : a ≤ b) : clamp v a b ≤ b :=
  max_le h (min_le_left _ _)

theorem lo_le_clamp (v a b : α) : a ≤ clamp v a b := le_max_left _ _

theorem le_clamp_of_le (v a b lo : α) (h1 : lo ≤ v) (h2 : lo ≤ b) :
    lo ≤ clamp v a b :=
  le_trans (le_min h2 h1) (le_max_right _ _)

theorem lt_clamp_of_lt (v a b lo : α) (h1 : lo < v) (h2 : lo < b) :
    lo < clamp v a b :=
  lt_of_lt_of_le (lt_min h2 h1) (le_max_right _ _)

theorem lerp_self (a t : α) : lerp a a t = a := by simp [lerp]

theorem lerp_zero_t (a b : α) : lerp a b 0 = a := by simp [lerp]

theorem le_lerp (a b t lo : α) (ha : lo ≤ a) (hb : lo ≤ b) (h0 : 0 ≤ t)
    (h1 : t ≤ 1) : lo ≤ lerp a b t := by
  have : lerp a b t = (1 - t) * a + t * b := by rw [lerp]; ring
  rw [this]
  nlinarith

theorem lerp_le (a b t hi : α) (ha : a ≤ hi) (hb : b ≤ hi) (h0 : 0 ≤ t)
    (h1 : t ≤ 1) : lerp a b t ≤ hi := by
  have : lerp a b t = (1 - t) * a + t * b := by rw [lerp]; ring
  rw [this]
  nlinarith

theorem lt_lerp (a b t lo : α) (ha : lo < a) (hb : lo < b) (h0 : 0 ≤ t)
    (h1 : t ≤ 1) : lo < lerp a b t := by
  have : lerp a b t = (1 - t) * a + t * b := by rw [lerp]; ring
  rw [this]
  rcases eq_or_lt_of_le h1 with h | h
  · subst h; nlinarith
  · nlinarith

/-- Bilinear sampling at an exact integer grid coordinate reads back the
    stored cell value: the fractional parts tx and ty vanish. -/
theorem sampleScalar_natCast (R C : ℕ) (field : Field2 α) (i j : ℕ)
    (hi : i < R) (hj : j < C) :
    sampleScalar R C field (j : α) (i : α) = field i j := by
  have hjC : (j : α) ≤ (C : α) - 1 := by
    have h : ((j : ℕ) : α) + 1 ≤ (C : α) := by exact_mod_cast Nat.succ_le_of_lt hj
    linarith
  have hiR : (i : α) ≤ (R : α) - 1 := by
    have h : ((i : ℕ) : α) + 1 ≤ (R : α) := by exact_mod_cast Nat.succ_le_of_lt hi
    linarith
  have hx : clamp (j : α) 0 ((C : α) - 1) = (j : α) :=
    clamp_eq_self _ _ _ (Nat.cast_nonneg j) hjC
  have hy : clamp (i : α) 0 ((R : α) - 1) = (i : α) :=
    clamp_eq_self _ _ _ (Nat.cast_nonneg i) hiR
  simp only [sampleScalar, hx, hy, Int.floor_natCast, Int.toNat_natCast,
    sub_self, lerp_zero_t]

theorem computeVelocity_nil (width height : α) :
    computeVelocity width height [] [] = (make2D 0, make2D 0) := rfl

/-- Advection along a zero velocity field is the identity at in-range cells. -/
theorem advect_zero_vel (field : Field2 α) (y x : ℕ) (hy : y < rows)
    (hx : x < cols) : advect field (make2D 0) (make2D 0) y x = field y x := by
  simp only [advect, make2D, zero_mul, sub_zero]
  exact sampleScalar_natCast rows cols field y x hy hx

theorem diffuse_le (field : Field2 α) (lo : α)
    (h : ∀ y < rows, ∀ x < cols, lo ≤ field y x) (y x : ℕ)
    (hy : y < rows) (hx : x < cols) : lo ≤ diffuse field y x := by
  have hup : lo ≤ field (min (y - 1) (rows - 1)) x :=
    h _ (lt_of_le_of_lt (min_le_right _ _) (by norm_num [rows])) _ hx
  have hdn : lo ≤ field (min (y + 1) (rows - 1)) x :=
    h _ (lt_of_le_of_lt (min_le_right _ _) (by norm_num [rows])) _ hx
  have hlf : lo ≤ field y (min (x - 1) (cols - 1)) :=
    h _ hy _ (lt_of_le_of_lt (min_le_right _ _) (by norm_num [cols]))
  have hrt : lo ≤ field y (min (x + 1) (cols - 1)) :=
    h _ hy _ (lt_of_le_of_lt (min_le_right _ _) (by norm_num [cols]))
  have hc : lo ≤ field y x := h _ hy _ hx
  refine le_lerp _ _ _ _ hc ?_ (by norm_num [DIFF]) (by norm_num [DIFF])
  nlinarith

theorem le_diffuse (field : Field2 α) (hi : α)
    (h : ∀ y < rows, ∀ x < cols, field y x ≤ hi) (y x : ℕ)
    (hy : y < rows) (hx : x < cols) : diffuse field y x ≤ hi := by
  have hup : field (min (y - 1) (rows - 1)) x ≤ hi :=
    h _ (lt_of_le_of_lt (min_le_right _ _) (by norm_num [rows])) _ hx
  have hdn : field (min (y + 1) (rows - 1)) x ≤ hi :=
    h _ (lt_of_le_of_lt (min_le_right _ _) (by norm_num [rows])) _ hx
  have hlf : field y (min (x - 1) (cols - 1)) ≤ hi :=
    h _ hy _ (lt_of_le_of_lt (min_le_right _ _) (by norm_num [cols]))
  have hrt : field y (min (x + 1) (cols - 1)) ≤ hi :=
    h _ hy _ (lt_of_le_of_lt (min_le_right _ _) (by norm_num [cols]))
  have hc : field y x ≤ hi := h _ hy _ hx
  refine lerp_le _ _ _ _ hc ?_ (by norm_num [DIFF]) (by norm_num [DIFF])
  nlinarith

theorem diffuse_lt (field : Field2 α) (lo : α)
    (h : ∀ y < rows, ∀ x < cols, lo < field y x) (y x : ℕ)
    (hy : y < rows) (hx : x < cols) : lo < diffuse field y x := by
  have hup : lo < field (min (y - 1) (rows - 1)) x :=
    h _ (lt_of_le_of_lt (min_le_right _ _) (by norm_num [rows])) _ hx
  have hdn : lo < field (min (y + 1) (rows - 1)) x :=
    h _ (lt_of_le_of_lt (min_le_right _ _) (by norm_num [rows])) _ hx
  have hlf : lo < field y (min (x - 1) (cols - 1)) :=
    h _ hy _ (lt_of_le_of_lt (min_le_right _ _) (by norm_num [cols]))
  have hrt : lo < field y (min (x + 1) (cols - 1)) :=
    h _ hy _ (lt_of_le_of_lt (min_le_right _ _) (by norm_num [cols]))
  have hc : lo < field y x := h _ hy _ hx
  refine lt_lerp _ _ _ _ hc ?_ (by norm_num [DIFF]) (by norm_num [DIFF])
  nlinarith

theorem addFan_apply_fst (width height : α) (v : VecField α) (f : Fan α)
    (y x : ℕ) :
    (addFan width height v f).1 y x = v.1 y x +
      ((x : α) - pxToGX width f.x) /
        (((x : α) - pxToGX width f.x) * ((x : α) - pxToGX width f.x) +
          ((y : α) - pxToGY height f.y) * ((y : α) - pxToGY height f.y) + 6) *
        FAN_STRENGTH * fanStrength f := rfl

theorem addFan_apply_snd (width height : α) (v : VecField α) (f : Fan α)
    (y x : ℕ) :
    (addFan width height v f).2 y x = v.2 y x +
      ((y : α) - pxToGY height f.y) /
        (((x : α) - pxToGX width f.x) * ((x : α) - pxToGX width f.x) +
          ((y : α) - pxToGY height f.y) * ((y : α) - pxToGY height f.y) + 6) *
        FAN_STRENGTH * fanStrength f := rfl

theorem addWindow_apply_fst (width height : α) (v : VecField α) (win : Window α)
    (y x : ℕ) :
    (addWindow width height v win).1 y x = v.1 y x +
      (if |(x : α) - pxToGX width win.x| ≤ windowHalf width win ∧
          |(y : α) - pxToGY height win.y| ≤ 2.2 then
        (windowDir width height win.x win.y).1 * WINDOW_FLOW * windowOpen win
      else 0) := by
  simp only [addWindow]
  split
  · rfl
  · rw [add_zero]

theorem addWindow_apply_snd (width height : α) (v : VecField α) (win : Window α)
    (y x : ℕ) :
    (addWindow width height v win).2 y x = v.2 y x +
      (if |(x : α) - pxToGX width win.x| ≤ windowHalf width win ∧
          |(y : α) - pxToGY height win.y| ≤ 2.2 then
        (windowDir width height win.x win.y).2 * WINDOW_FLOW * windowOpen win
      else 0) := by
  simp only [addWindow]
  split
  · rfl
  · rw [add_zero]

/-- Folding windows over any starting velocity field adds the same per-cell
    amount as folding them over the zero field. -/
theorem windowFold_add (width height : α) (ws : List (Window α))
    (v : VecField α) (y x : ℕ) :
    (ws.foldl (addWindow width height) v).1 y x =
      v.1 y x + (ws.foldl (addWindow width height) (make2D 0, make2D 0)).1 y x ∧
    (ws.foldl (addWindow width height) v).2 y x =
      v.2 y x + (ws.foldl (addWindow width height) (make2D 0, make2D 0)).2 y x := by
  induction ws generalizing v with
  | nil => constructor <;> simp [make2D]
  | cons w ws ih =>
    simp only [List.foldl_cons]
    constructor
    · rw [(ih (addWindow width height v w)).1,
        (ih (addWindow width height (make2D 0, make2D 0) w)).1,
        addWindow_apply_fst, addWindow_apply_fst]
      show _ = _ + ((0 : α) + _ + _)
      ring
    · rw [(ih (addWindow width height v w)).2,
        (ih (addWindow width height (make2D 0, make2D 0) w)).2,
        addWindow_apply_snd, addWindow_apply_snd]
      show _ = _ + ((0 : α) + _ + _)
      ring

/-- Folding fans over any starting velocity field adds the same per-cell
    amount as folding them over the zero field. -/
theorem fanFold_add (width height : α) (fs : List (Fan α)) (v : VecField α)
    (y x : ℕ) :
    (fs.foldl (addFan width height) v).1 y x =
      v.1 y x + (fs.foldl (addFan width height) (make2D 0, make2D 0)).1 y x ∧
    (fs.foldl (addFan width height) v).2 y x =
      v.2 y x + (fs.foldl (addFan width height) (make2D 0, make2D 0)).2 y x := by
  induction fs generalizing v with
  | nil => constructor <;> simp [make2D]
  | cons f fs ih =>
    simp only [List.foldl_cons]
    constructor
    · rw [(ih (addFan width height v f)).1,
        (ih (addFan width height (make2D 0, make2D 0) f)).1,
        addFan_apply_fst, addFan_apply_fst]
      show _ = _ + ((0 : α) + _ + _)
      ring
    · rw [(ih (addFan width height v f)).2,
        (ih (addFan width height (make2D 0, make2D 0) f)).2,
        addFan_apply_snd, addFan_apply_snd]
      show _ = _ + ((0 : α) + _ + _)
      ring

theorem init_le_maxFold (init : ℝ) (l : List ℝ) : init ≤ maxFold init l := by
  induction l generalizing init with
  | nil => exact le_refl _
  | cons a l ih =>
    show init ≤ maxFold (if init < a then a else init) l
    refine le_trans ?_ (ih _)
    split
    · exact le_of_lt (by assumption)
    · exact le_refl _

theorem mem_le_maxFold (init : ℝ) (l : List ℝ) (v : ℝ) (hv : v ∈ l) :
    v ≤ maxFold init l := by
  induction l generalizing init with
  | nil => cases hv
  | cons a l ih =>
    rcases List.mem_cons.mp hv with h | h
    · subst h
      show v ≤ maxFold (if init < v then v else init) l
      refine le_trans ?_ (init_le_maxFold _ l)
      split
      · exact le_refl _
      · exact le_of_not_lt (by assumption)
    · show v ≤ maxFold (if init < a then a else init) l
      exact ih _ h

theorem list_range_map_sum (n : ℕ) (f : ℕ → ℝ) :
    ((List.range n).map f).sum = Finset.sum (Finset.range n) f := by
  induction n with
  | zero => simp
  | succ n ih => simp [List.range_succ, Finset.sum_range_succ, ih]

theorem applyVentilation_nil (width height oc ot : α) (fs : Fields3 α) :
    applyVentilation width height oc ot [] fs = fs := rfl

theorem applyOccupants_nil (width height : ℝ) (fs : Fields3 ℝ) :
    applyOccupants width height [] fs = fs := rfl

theorem stepSim_co2_clamp (c : Config) (s : Fields3 ℝ) (y x : ℕ) :
    ∃ v, (stepSim c s).co2 y x = clamp v c.outdoorCO2 5000 := ⟨_, rfl⟩

theorem stepSim_virus_clamp (c : Config) (s : Fields3 ℝ) (y x : ℕ) :
    ∃ v, (stepSim c s).virus y x = clamp v 0 1000 := ⟨_, rfl⟩

theorem stepSim_temp_clamp (c : Config) (s : Fields3 ℝ) (y x : ℕ) :
    ∃ v, (stepSim c s).temp y x = clamp v (-10) 40 := ⟨_, rfl⟩

theorem optStep_none (fanS : Fan ℝ) (score : ℝ) (stats : Stats) (st : OptState)
    (h : st.bestScore = none) :
    optStep fanS score stats st =
      { best := fanS, bestScore := some score, bestStats := some stats } := by
  have he : optStep fanS score stats st =
      match st.bestScore with
      | none => { best := fanS, bestScore := some score, bestStats := some stats }
      | some b =>
          if score < b then
            { best := fanS, bestScore := some score, bestStats := some stats }
          else st := rfl
  rw [he, h]

theorem optStep_some (fanS : Fan ℝ) (score : ℝ) (stats : Stats) (st : OptState)
    (b : ℝ) (h : st.bestScore = some b) :
    optStep fanS score stats st =
      if score < b then
        { best := fanS, bestScore := some score, bestStats := some stats }
      else st := by
  have he : optStep fanS score stats st =
      match st.bestScore with
      | none => { best := fanS, bestScore := some score, bestStats := some stats }
      | some b =>
          if score < b then
            { best := fanS, bestScore := some score, bestStats := some stats }
          else st := rfl
  rw [he, h]

/-- The full specification of the optimizer trial loop: after n ≥ 1 trials
    starting from the Infinity sentinel, the tracked best score is the
    minimum trial score, the winner is the first trial attaining it (every
    earlier trial scored strictly higher), and its fan and stats are kept. -/
theorem optLoop_spec (fanOf : ℕ → Fan ℝ) (statsOf : ℕ → Stats) (g : ℕ → ℝ)
    (st0 : OptState) (h0 : st0.bestScore = none) (n : ℕ) (hn : 1 ≤ n) :
    ∃ m : ℝ,
      ((List.range n).foldl
        (fun st k => optStep (fanOf k) (g k) (statsOf k) st) st0).bestScore = some m ∧
      (∀ k, k < n → m ≤ g k) ∧
      ∃ i, i < n ∧ m = g i ∧
        ((List.range n).foldl
          (fun st k => optStep (fanOf k) (g k) (statsOf k) st) st0).best = fanOf i ∧
        ((List.range n).foldl
          (fun st k => optStep (fanOf k) (g k) (statsOf k) st) st0).bestStats =
            some (statsOf i) ∧
        ∀ j, j < i → m < g j := by
  induction n with
  | zero => exact absurd hn (by norm_num)
  | succ n ih =>
    rcases Nat.eq_zero_or_pos n with h | h
    · subst h
      have hr : List.range 1 = [0] := rfl
      rw [hr, List.foldl_cons, List.foldl_nil, optStep_none _ _ _ _ h0]
      refine ⟨g 0, rfl, ?_, 0, Nat.zero_lt_one, rfl, rfl, rfl, ?_⟩
      · intro k hk
        have hk0 : k = 0 := by omega
        subst hk0
        exact le_refl _
      · intro j hj
        exact absurd hj (Nat.not_lt_zero j)
    · obtain ⟨m, hm, hall, i, hi, hmi, hbest, hstats, hfirst⟩ := ih h
      rw [List.range_succ, List.foldl_append, List.foldl_cons, List.foldl_nil,
        optStep_some _ _ _ _ m hm]
      by_cases hlt : g n < m
      · rw [if_pos hlt]
        refine ⟨g n, rfl, ?_, n, Nat.lt_succ_self n, rfl, rfl, rfl, ?_⟩
        · intro k hk
          rcases Nat.lt_succ_iff_lt_or_eq.mp hk with hk | hk
          · exact le_of_lt (lt_of_lt_of_le hlt (hall k hk))
          · subst hk; exact le_refl _
        · intro j hj
          exact lt_of_lt_of_le hlt (hall j hj)
      · rw [if_neg hlt]
        refine ⟨m, hm, ?_, i, Nat.lt_succ_of_lt hi, hmi, hbest, hstats, hfirst⟩
        intro k hk
        rcases Nat.lt_succ_iff_lt_or_eq.mp hk with hk | hk
        · exact hall k hk
        · subst hk; exact le_of_not_lt hlt

/-- Folding a single window in computeVelocity and in applyVentilation
    reduces to the explicit banded update. -/
theorem applyVentilation_single (width height oc ot : α) (win : Window α)
    (fs : Fields3 α) :
    applyVentilation width height oc ot [win] fs =
      { co2 := fun y x =>
          if |(x : α) - pxToGX width win.x| ≤ windowHalf width win ∧
              |(y : α) - pxToGY height win.y| ≤ 2.8 then
            lerp (fs.co2 y x) oc (VENT_PULL * windowOpen win)
          else fs.co2 y x,
        virus := fun y x =>
          if |(x : α) - pxToGX width win.x| ≤ windowHalf width win ∧
              |(y : α) - pxToGY height win.y| ≤ 2.8 then
            lerp (fs.virus y x) outdoorVirus (VENT_PULL * windowOpen win)
          else fs.virus y x,
        temp := fun y x =>
          if |(x : α) - pxToGX width win.x| ≤ windowHalf width win ∧
              |(y : α) - pxToGY height win.y| ≤ 2.8 then
            lerp (fs.temp y x) ot (VENT_PULL * windowOpen win * 0.8)
          else fs.temp y x } := rfl

theorem addWindow_congr (width height : α) (v : VecField α) (w1 w2 : Window α)
    (hx : w1.x = w2.x) (hy : w1.y = w2.y) (hw : w1.w = w2.w)
    (ho : windowOpen w1 = windowOpen w2) :
    addWindow width height v w1 = addWindow width height v w2 := by
  unfold addWindow windowHalf windowDir
  rw [hx, hy, hw, ho]

theorem applyVentilation_single_congr (width height oc ot : α)
    (w1 w2 : Window α) (fs : Fields3 α)
    (hx : w1.x = w2.x) (hy : w1.y = w2.y) (hw : w1.w = w2.w)
    (ho : windowOpen w1 = windowOpen w2) :
    applyVentilation width height oc ot [w1] fs =
      applyVentilation width height oc ot [w2] fs := by
  rw [applyVentilation_single, applyVentilation_single]
  unfold windowHalf
  rw [hx, hy, hw, ho]

/- ------------------------------------------------------------------ -/
/- Claims.                                                            -/
/- ------------------------------------------------------------------ -/

/-- C6: for every field and every exact integer coordinate (x, y) within
    the grid bounds, bilinear sampling at (x, y) returns exactly the value
    stored at cell (y, x), with zero interpolation error. -/
theorem c6_sample_integer_exact (R C : ℕ) (field : Field2 ℝ) (i j : ℕ)
    (hi : i < R) (hj : j < C) :
    sampleScalar R C field (j : ℝ) (i : ℝ) = field i j :=
  sampleScalar_natCast R C field i j hi hj

/-- Witness for C6 at a concrete 3 x 4 field and the integer coordinate
    x = 1, y = 2. -/
theorem c6_sample_integer_exact_witness :
    (2 : ℕ) < 3 ∧ (1 : ℕ) < 4 ∧
    sampleScalar 3 4 (fun y x => (10 * y + x : ℝ)) ((1 : ℕ) : ℝ) ((2 : ℕ) : ℝ) =
      10 * 2 + 1 := by
  refine ⟨by norm_num, by norm_num, ?_⟩
  have h := c6_sample_integer_exact 3 4 (fun y x => (10 * y + x : ℝ)) 2 1
    (by norm_num) (by norm_num)
  rw [h]
  norm_num

/-- C7: the nearest wall is chosen by comparing the window center's
    distances to the left, right, top and bottom walls; on exact ties the
    check order left, right, top, bottom decides (left priority), and the
    chosen wall determines the inward perpendicular direction. -/
theorem c7_nearest_wall_tiebreak (width height wx wy : ℝ) :
    (windowDir width height wx wy = (1, 0) ↔
      wx ≤ width - wx ∧ wx ≤ wy ∧ wx ≤ height - wy) ∧
    (windowDir width height wx wy = (-1, 0) ↔
      width - wx < wx ∧ width - wx ≤ wy ∧ width - wx ≤ height - wy) ∧
    (windowDir width height wx wy = (0, 1) ↔
      wy < wx ∧ wy < width - wx ∧ wy ≤ height - wy) ∧
    (windowDir width height wx wy = (0, -1) ↔
      height - wy < wx ∧ height - wy < width - wx ∧ height - wy < wy) := by
  have hmL : min (min (min wx (width - wx)) wy) (height - wy) ≤ wx :=
    le_trans (min_le_left _ _) (le_trans (min_le_left _ _) (min_le_left _ _))
  have hmR : min (min (min wx (width - wx)) wy) (height - wy) ≤ width - wx :=
    le_trans (min_le_left _ _) (le_trans (min_le_left _ _) (min_le_right _ _))
  have hmT : min (min (min wx (width - wx)) wy) (height - wy) ≤ wy :=
    le_trans (min_le_left _ _) (min_le_right _ _)
  have hmB : min (min (min wx (width - wx)) wy) (height - wy) ≤ height - wy :=
    min_le_right _ _
  have hcases : min (min (min wx (width - wx)) wy) (height - wy) = wx ∨
      min (min (min wx (width - wx)) wy) (height - wy) = width - wx ∨
      min (min (min wx (width - wx)) wy) (height - wy) = wy ∨
      min (min (min wx (width - wx)) wy) (height - wy) = height - wy := by
    rcases min_choice (min (min wx (width - wx)) wy) (height - wy) with h | h
    · rw [h]
      rcases min_choice (min wx (width - wx)) wy with h2 | h2
      · rw [h2]
        rcases min_choice wx (width - wx) with h3 | h3
        · exact Or.inl h3
        · exact Or.inr (Or.inl h3)
      · exact Or.inr (Or.inr (Or.inl h2))
    · exact Or.inr (Or.inr (Or.inr h))
  simp only [windowDir]
  split_ifs with hL hR hT
  · refine ⟨iff_of_true rfl ⟨?_, ?_, ?_⟩, iff_of_false ?_ ?_, iff_of_false ?_ ?_,
      iff_of_false ?_ ?_⟩
    · linarith [hmR]
    · linarith [hmT]
    · linarith [hmB]
    · simp only [Prod.mk.injEq]
      rintro ⟨h1, -⟩
      norm_num at h1
    · rintro ⟨h1, -, -⟩
      linarith [hmR]
    · simp only [Prod.mk.injEq]
      rintro ⟨h1, -⟩
      norm_num at h1
    · rintro ⟨h1, -, -⟩
      linarith [hmT]
    · simp only [Prod.mk.injEq]
      rintro ⟨h1, -⟩
      norm_num at h1
    · rintro ⟨h1, -, -⟩
      linarith [hmB]
  · have hstrict : min (min (min wx (width - wx)) wy) (height - wy) < wx :=
      lt_of_le_of_ne hmL hL
    refine ⟨iff_of_false ?_ ?_, iff_of_true rfl ⟨?_, ?_, ?_⟩, iff_of_false ?_ ?_,
      iff_of_false ?_ ?_⟩
    · simp only [Prod.mk.injEq]
      rintro ⟨h1, -⟩
      norm_num at h1
    · rintro ⟨h1, h2, h3⟩
      have : wx ≤ min (min (min wx (width - wx)) wy) (height - wy) :=
        le_min (le_min (le_min (le_refl _) h1) h2) h3
      linarith
    · linarith [hstrict, hR.ge]
    · linarith [hmT, hR.le]
    · linarith [hmB, hR.le]
    · simp only [Prod.mk.injEq]
      rintro ⟨h1, -⟩
      norm_num at h1
    · rintro ⟨h1, h2, -⟩
      linarith [hmT, hR.le]
    · simp only [Prod.mk.injEq]
      rintro ⟨-, h2⟩
      norm_num at h2
    · rintro ⟨-, h2, -⟩
      linarith [hmB, hR.le]
  · have hstrictL : min (min (min wx (width - wx)) wy) (height - wy) < wx :=
      lt_of_le_of_ne hmL hL
    have hstrictR : min (min (min wx (width - wx)) wy) (height - wy) < width - wx :=
      lt_of_le_of_ne hmR hR
    refine ⟨iff_of_false ?_ ?_, iff_of_false ?_ ?_, iff_of_true rfl ⟨?_, ?_, ?_⟩,
      iff_of_false ?_ ?_⟩
    · simp only [Prod.mk.injEq]
      rintro ⟨h1, -⟩
      norm_num at h1
    · rintro ⟨h1, h2, h3⟩
      have : wx ≤ min (min (min wx (width - wx)) wy) (height - wy) :=
        le_min (le_min (le_min (le_refl _) h1) h2) h3
      linarith
    · simp only [Prod.mk.injEq]
      rintro ⟨h1, -⟩
      norm_num at h1
    · rintro ⟨h1, h2, h3⟩
      have : width - wx ≤ min (min (min wx (width - wx)) wy) (height - wy) :=
        le_min (le_min (le_min (le_of_lt h1) (le_refl _)) h2) h3
      linarith
    · linarith [hstrictL, hT.ge]
    · linarith [hstrictR, hT.ge]
    · linarith [hmB, hT.le]
    · simp only [Prod.mk.injEq]
      rintro ⟨-, h2⟩
      norm_num at h2
    · rintro ⟨-, -, h3⟩
      linarith [hmB, hT.le]
  · have hB : min (min (min wx (width - wx)) wy) (height - wy) = height - wy := by
      rcases hcases with h | h | h | h
      · exact absurd h hL
      · exact absurd h hR
      · exact absurd h hT
      · exact h
    have hstrictL : min (min (min wx (width - wx)) wy) (height - wy) < wx :=
      lt_of_le_of_ne hmL hL
    have hstrictR : min (min (min wx (width - wx)) wy) (height - wy) < width - wx :=
      lt_of_le_of_ne hmR hR
    have hstrictT : min (min (min wx (width - wx)) wy) (height - wy) < wy :=
      lt_of_le_of_ne hmT hT
    refine ⟨iff_of_false ?_ ?_, iff_of_false ?_ ?_, iff_of_false ?_ ?_,
      iff_of_true rfl ⟨?_, ?_, ?_⟩⟩
    · simp only [Prod.mk.injEq]
      rintro ⟨-, h2⟩
      norm_num at h2
    · rintro ⟨h1, h2, h3⟩
      have : wx ≤ min (min (min wx (width - wx)) wy) (height - wy) :=
        le_min (le_min (le_min (le_refl _) h1) h2) h3
      linarith
    · simp only [Prod.mk.injEq]
      rintro ⟨-, h2⟩
      norm_num at h2
    · rintro ⟨h1, h2, h3⟩
      have : width - wx ≤ min (min (min wx (width - wx)) wy) (height - wy) :=
        le_min (le_min (le_min (le_of_lt h1) (le_refl _)) h2) h3
      linarith
    · simp only [Prod.mk.injEq]
      rintro ⟨-, h2⟩
      norm_num at h2
    · rintro ⟨h1, h2, h3⟩
      have : wy ≤ min (min (min wx (width - wx)) wy) (height - wy) :=
        le_min (le_min (le_min (le_of_lt h1) (le_of_lt h2)) (le_refl _)) h3
      linarith
    · linarith [hstrictL, hB.ge]
    · linarith [hstrictR, hB.ge]
    · linarith [hstrictT, hB.ge]

/-- Witness for C7: room 800 x 500 with the window center at (100, 250):
    the left wall is strictly nearest, so the direction is (1, 0). -/
theorem c7_nearest_wall_tiebreak_witness :
    windowDir (800 : ℝ) 500 100 250 = (1, 0) :=
  (c7_nearest_wall_tiebreak 800 500 100 250).1.mpr (by norm_num)

/-- C9: a missing or non-finite width (or height) is replaced by the
    default 800 (or 500) in both entry points, which then complete normally,
    returning the same result as with the default supplied explicitly. -/
theorem c9_nonfinite_dims_defaulted (i : SimInput) (o : OptInput) (rand : ℕ → ℝ) :
    (i.width = none →
      i.config.width = 800 ∧ simulate i = simulate { i with width := some 800 }) ∧
    (i.height = none →
      i.config.height = 500 ∧ simulate i = simulate { i with height := some 500 }) ∧
    (o.width = none →
      optimizeFan o rand = optimizeFan { o with width := some 800 } rand) ∧
    (o.height = none →
      optimizeFan o rand = optimizeFan { o with height := some 500 } rand) := by
  refine ⟨?_, ?_, ?_, ?_⟩
  · intro h
    constructor
    · simp [SimInput.config, h]
    · unfold simulate
      congr 1
      simp [SimInput.config, h]
  · intro h
    constructor
    · simp [SimInput.config, h]
    · unfold simulate
      congr 1
      simp [SimInput.config, h]
  · intro h
    unfold optimizeFan optimizeFanAux trialStats trialFan
    simp [h]
  · intro h
    unfold optimizeFan optimizeFanAux trialStats trialFan
    simp [h]

/-- Witness for C9: the empty input with no dimensions at all. -/
theorem c9_nonfinite_dims_defaulted_witness :
    (SimInput.mk none none [] [] [] none none).config.width = 800 ∧
    (SimInput.mk none none [] [] [] none none).config.height = 500 ∧
    optimizeFan (OptInput.mk none none [] [] none none) (fun _ => 0) =
      optimizeFan (OptInput.mk (some 800) none [] [] none none) (fun _ => 0) := by
  have h := c9_nonfinite_dims_defaulted (SimInput.mk none none [] [] [] none none)
    (OptInput.mk none none [] [] none none) (fun _ => 0)
  exact ⟨(h.1 rfl).1, (h.2.1 rfl).1, h.2.2.1 rfl⟩

/-- C10: a missing or non-finite window open fraction is treated as fully
    open (1.0) by both the velocity injection and the ventilation sink, and
    a finite open fraction is clamped into [0, 1] rather than rejected. -/
theorem c10_window_open_sanitized (width height oc ot wx wy v : ℝ)
    (ww : Option ℝ) (fans : List (Fan ℝ)) (fs : Fields3 ℝ) :
    windowOpen (Window.mk (α := ℝ) wx wy ww none) = 1 ∧
    windowOpen (Window.mk (α := ℝ) wx wy ww (some v)) = clamp v 0 1 ∧
    0 ≤ clamp v 0 1 ∧ clamp v 0 1 ≤ 1 ∧
    computeVelocity width height fans [Window.mk wx wy ww none] =
      computeVelocity width height fans [Window.mk wx wy ww (some 1)] ∧
    applyVentilation width height oc ot [Window.mk wx wy ww none] fs =
      applyVentilation width height oc ot [Window.mk wx wy ww (some 1)] fs ∧
    computeVelocity width height fans [Window.mk wx wy ww (some v)] =
      computeVelocity width height fans [Window.mk wx wy ww (some (clamp v 0 1))] ∧
    applyVentilation width height oc ot [Window.mk wx wy ww (some v)] fs =
      applyVentilation width height oc ot [Window.mk wx wy ww (some (clamp v 0 1))] fs := by
  have hclamp : clamp (clamp v 0 1) 0 1 = clamp v 0 1 :=
    clamp_eq_self _ _ _ (lo_le_clamp _ _ _) (clamp_le_hi _ _ _ (by norm_num))
  have ho1 : windowOpen (Window.mk (α := ℝ) wx wy ww none) =
      windowOpen (Window.mk (α := ℝ) wx wy ww (some 1)) := by
    show (1 : ℝ) = clamp 1 0 1
    rw [clamp_eq_self _ _ _ (by norm_num) (by norm_num)]
  have hov : windowOpen (Window.mk (α := ℝ) wx wy ww (some v)) =
      windowOpen (Window.mk (α := ℝ) wx wy ww (some (clamp v 0 1))) := by
    show clamp v 0 1 = clamp (clamp v 0 1) 0 1
    rw [hclamp]
  refine ⟨rfl, rfl, lo_le_clamp _ _ _, clamp_le_hi _ _ _ (by norm_num), ?_, ?_, ?_, ?_⟩
  · unfold computeVelocity
    rw [List.foldl_cons, List.foldl_nil, List.foldl_cons, List.foldl_nil]
    exact addWindow_congr _ _ _ _ _ rfl rfl rfl ho1
  · exact applyVentilation_single_congr _ _ _ _ _ _ fs rfl rfl rfl ho1
  · unfold computeVelocity
    rw [List.foldl_cons, List.foldl_nil, List.foldl_cons, List.foldl_nil]
    exact addWindow_congr _ _ _ _ _ rfl rfl rfl hov
  · exact applyVentilation_single_congr _ _ _ _ _ _ fs rfl rfl rfl hov

/-- C3: each returned average statistic equals the arithmetic mean (sum
    divided by rows * cols) of the corresponding per-cell values of the
    returned grid. -/
theorem c3_stats_are_grid_means (i : SimInput) :
    (simulate i).stats.avgCO2 =
      ((simulate i).grid.map (fun row => (row.map Cell.co2).sum)).sum /
        ((rows : ℝ) * (cols : ℝ)) ∧
    (simulate i).stats.avgVirus =
      ((simulate i).grid.map (fun row => (row.map Cell.virus).sum)).sum /
        ((rows : ℝ) * (cols : ℝ)) ∧
    (simulate i).stats.avgTemp =
      ((simulate i).grid.map (fun row => (row.map Cell.temp).sum)).sum /
        ((rows : ℝ) * (cols : ℝ)) := by
  refine ⟨?_, ?_, ?_⟩ <;>
    simp only [simulate, simulateCore, gridSum, List.map_map, Function.comp_def,
      list_range_map_sum]

/-- Counterexample to C1 as stated: the two bands are not the same. For the
    window centered at (400, 250) in an 800 x 500 room (grid center
    (21.5, 13.5), half-width 4.3), the cell (y, x) = (16, 21) has
    |dy| = 2.5, so the ventilation sink (half-height 2.8) changes its co2
    value from 1020 to 972, while the velocity injection (half-height 2.2)
    adds nothing there: both velocity components stay 0. -/
theorem c1_same_band_counterexample :
    (applyVentilation (800 : ℝ) 500 420 10 [Window.mk 400 250 (some 160) (some 1)]
      ⟨make2D 1020, make2D 0, make2D 21⟩).co2 16 21 = 972 ∧
    (972 : ℝ) ≠ 1020 ∧
    (computeVelocity (800 : ℝ) 500 [] [Window.mk 400 250 (some 160) (some 1)]).1 16 21 = 0 ∧
    (computeVelocity (800 : ℝ) 500 [] [Window.mk 400 250 (some 160) (some 1)]).2 16 21 = 0 := by
  refine ⟨?_, by norm_num, ?_, ?_⟩
  · rw [applyVentilation_single]
    norm_num [pxToGX, pxToGY, windowHalf, windowOpen, clamp, lerp, VENT_PULL,
      make2D, cols, rows, abs_le]
  · show (addWindow (800 : ℝ) 500 (make2D 0, make2D 0)
      (Window.mk 400 250 (some 160) (some 1))).1 16 21 = 0
    rw [addWindow_apply_fst]
    norm_num [pxToGX, pxToGY, windowHalf, make2D, cols, rows, abs_le]
  · show (addWindow (800 : ℝ) 500 (make2D 0, make2D 0)
      (Window.mk 400 250 (some 160) (some 1))).2 16 21 = 0
    rw [addWindow_apply_snd]
    norm_num [pxToGX, pxToGY, windowHalf, make2D, cols, rows, abs_le]

/-- C1 amended: for every window, the ventilation sink acts on the band with
    the same center and half-width as the velocity injection band but with
    half-height 2.8 instead of 2.2; inside it each field is updated as
    new = lerp(current, outdoorBaseline, VENT_PULL * openFraction), with the
    temperature blend factor 0.8 times the factor used for co2 and virus. -/
theorem c1_ventilation_banded_pull (width height oc ot : ℝ) (win : Window ℝ)
    (fs : Fields3 ℝ) (y x : ℕ) :
    (applyVentilation width height oc ot [win] fs).co2 y x =
      (if |(x : ℝ) - pxToGX width win.x| ≤ windowHalf width win ∧
          |(y : ℝ) - pxToGY height win.y| ≤ 2.8 then
        lerp (fs.co2 y x) oc (VENT_PULL * windowOpen win)
      else fs.co2 y x) ∧
    (applyVentilation width height oc ot [win] fs).virus y x =
      (if |(x : ℝ) - pxToGX width win.x| ≤ windowHalf width win ∧
          |(y : ℝ) - pxToGY height win.y| ≤ 2.8 then
        lerp (fs.virus y x) outdoorVirus (VENT_PULL * windowOpen win)
      else fs.virus y x) ∧
    (applyVentilation width height oc ot [win] fs).temp y x =
      (if |(x : ℝ) - pxToGX width win.x| ≤ windowHalf width win ∧
          |(y : ℝ) - pxToGY height win.y| ≤ 2.8 then
        lerp (fs.temp y x) ot (VENT_PULL * windowOpen win * 0.8)
      else fs.temp y x) ∧
    (computeVelocity width height [] [win]).1 y x =
      (if |(x : ℝ) - pxToGX width win.x| ≤ windowHalf width win ∧
          |(y : ℝ) - pxToGY height win.y| ≤ 2.2 then
        (windowDir width height win.x win.y).1 * WINDOW_FLOW * windowOpen win
      else 0) ∧
    (computeVelocity width height [] [win]).2 y x =
      (if |(x : ℝ) - pxToGX width win.x| ≤ windowHalf width win ∧
          |(y : ℝ) - pxToGY height win.y| ≤ 2.2 then
        (windowDir width height win.x win.y).2 * WINDOW_FLOW * windowOpen win
      else 0) := by
  refine ⟨by rw [applyVentilation_single], by rw [applyVentilation_single],
    by rw [applyVentilation_single], ?_, ?_⟩
  · show (addWindow width height (make2D 0, make2D 0) win).1 y x = _
    rw [addWindow_apply_fst]
    simp [make2D]
  · show (addWindow width height (make2D 0, make2D 0) win).2 y x = _
    rw [addWindow_apply_snd]
    simp [make2D]

/-- Modelled from the spec words of C5 (what the claim asserts): a per-axis
    fan velocity component offset / (offset^2 + 6) * FAN_STRENGTH * strength
    computed independently from that axis offset alone. -/
noncomputable def specFanComponent (offset strength : ℝ) : ℝ :=
  offset / (offset * offset + 6) * FAN_STRENGTH * strength

/-- Counterexample to C5 as stated: for a fan at (0, 0) with strength 1 in an
    800 x 500 room and the cell (y, x) = (1, 1) (offsets dx = dy = 1), the
    code adds dx / (dx^2 + dy^2 + 6) * 2.8 = 1/8 * 2.8 = 0.35 to vx, while
    the claimed per-axis formula dx / (dx^2 + 6) * 2.8 gives 0.4: the
    denominator couples both offsets. -/
theorem c5_fan_formula_counterexample :
    (computeVelocity (800 : ℝ) 500 [Fan.mk 0 0 (some 1)] []).1 1 1 = 0.35 ∧
    specFanComponent ((1 : ℝ) - pxToGX 800 (Fan.mk (α := ℝ) 0 0 (some 1)).x)
      (fanStrength (Fan.mk (α := ℝ) 0 0 (some 1))) = 0.4 ∧
    (0.35 : ℝ) ≠ 0.4 := by
  refine ⟨?_, ?_, by norm_num⟩
  · show (addFan (800 : ℝ) 500 (make2D 0, make2D 0) (Fan.mk 0 0 (some 1))).1 1 1 = 0.35
    rw [addFan_apply_fst]
    norm_num [pxToGX, pxToGY, FAN_STRENGTH, fanStrength, make2D, cols, rows]
  · norm_num [specFanComponent, pxToGX, FAN_STRENGTH, fanStrength, cols]

/-- C5 amended: for every fan, the velocity field builder adds at each grid
    cell a repulsive vector whose x (resp. y) component is
    (dx resp. dy) / (dx^2 + dy^2 + 6) * FAN_STRENGTH * strength, where dx
    and dy are the cell offsets from the fan's grid position: the numerator
    is per-axis but the denominator is the shared squared distance plus 6. -/
theorem c5_fan_velocity_additive (width height : ℝ) (f : Fan ℝ)
    (fans : List (Fan ℝ)) (windows : List (Window ℝ)) (y x : ℕ) :
    (computeVelocity width height (f :: fans) windows).1 y x =
      (computeVelocity width height fans windows).1 y x +
        ((x : ℝ) - pxToGX width f.x) /
          (((x : ℝ) - pxToGX width f.x) * ((x : ℝ) - pxToGX width f.x) +
            ((y : ℝ) - pxToGY height f.y) * ((y : ℝ) - pxToGY height f.y) + 6) *
          FAN_STRENGTH * fanStrength f ∧
    (computeVelocity width height (f :: fans) windows).2 y x =
      (computeVelocity width height fans windows).2 y x +
        ((y : ℝ) - pxToGY height f.y) /
          (((x : ℝ) - pxToGX width f.x) * ((x : ℝ) - pxToGX width f.x) +
            ((y : ℝ) - pxToGY height f.y) * ((y : ℝ) - pxToGY height f.y) + 6) *
          FAN_STRENGTH * fanStrength f := by
  constructor
  · unfold computeVelocity
    rw [List.foldl_cons,
      (windowFold_add width height windows
        (fans.foldl (addFan width height)
          (addFan width height (make2D 0, make2D 0) f)) y x).1,
      (windowFold_add width height windows
        (fans.foldl (addFan width height) (make2D 0, make2D 0)) y x).1,
      (fanFold_add width height fans
        (addFan width height (make2D 0, make2D 0) f) y x).1,
      addFan_apply_fst]
    simp only [make2D]
    ring
  · unfold computeVelocity
    rw [List.foldl_cons,
      (windowFold_add width height windows
        (fans.foldl (addFan width height)
          (addFan width height (make2D 0, make2D 0) f)) y x).2,
      (windowFold_add width height windows
        (fans.foldl (addFan width height) (make2D 0, make2D 0)) y x).2,
      (fanFold_add width height fans
        (addFan width height (make2D 0, make2D 0) f) y x).2,
      addFan_apply_snd]
    simp only [make2D]
    ring

set_option maxRecDepth 8000

/-- C4: the fan-placement optimizer runs exactly TRIES = 80 trials, each
    with a single fan of strength 1.0; it tracks the minimum-score trial
    with strict less-than (so on exact ties the first-found minimum is
    kept: every trial before the winner scored strictly higher); the
    returned score is the minimum trial score rounded to 3 decimals, and
    the unrounded best score is ≤ the first trial's score. -/
theorem c4_optimizer_min_tracking (o : OptInput) (rand : ℕ → ℝ) :
    ∃ m : ℝ,
      (optimizeFanAux o rand).bestScore = some m ∧
      (optimizeFan o rand).score = round3 m ∧
      m ≤ scoreOf (trialStats o rand 0) ∧
      (∀ k, k < TRIES → m ≤ scoreOf (trialStats o rand k)) ∧
      (∀ k, (trialFan (o.width.getD 800) (o.height.getD 500) rand k).strength = some 1) ∧
      (optimizeFan o rand).bestFan.strength = some 1 ∧
      ∃ i, i < TRIES ∧ m = scoreOf (trialStats o rand i) ∧
        (optimizeFan o rand).bestFan =
          trialFan (o.width.getD 800) (o.height.getD 500) rand i ∧
        (optimizeFan o rand).stats = some (trialStats o rand i) ∧
        ∀ j, j < i → m < scoreOf (trialStats o rand j) := by
  obtain ⟨m, hm, hall, i, hi, hmi, hbest, hstats, hfirst⟩ :=
    optLoop_spec (fun k => trialFan (o.width.getD 800) (o.height.getD 500) rand k)
      (fun k => trialStats o rand k) (fun k => scoreOf (trialStats o rand k))
      { best := { x := o.width.getD 800 / 2, y := o.height.getD 500 / 2,
                  strength := some 1 },
        bestScore := none, bestStats := none } rfl TRIES (by norm_num [TRIES])
  have hmA : (optimizeFanAux o rand).bestScore = some m := hm
  have hbestA : (optimizeFanAux o rand).best =
      trialFan (o.width.getD 800) (o.height.getD 500) rand i := hbest
  have hstatsA : (optimizeFanAux o rand).bestStats = some (trialStats o rand i) :=
    hstats
  refine ⟨m, hmA, ?_, hall 0 (by norm_num [TRIES]), hall, fun k => rfl, ?_, i, hi,
    hmi, hbestA, hstatsA, hfirst⟩
  · show round3 ((optimizeFanAux o rand).bestScore.getD 0) = round3 m
    rw [hmA]
    rfl
  · show (optimizeFanAux o rand).best.strength = some 1
    rw [hbestA]
    rfl

/-- Counterexample to C2 as stated (for every finite input): with outdoor
    co2 = 6000 and nothing else in the room, every cell starts at 6600 and
    the end-of-step clamp to [outdoorCO2, 5000] = [6000, 5000] yields 6000,
    which is not ≤ 5000: the claimed interval is empty and the bound
    co2 ≤ 5000 fails after step 1 at cell (0, 0). -/
theorem c2_range_counterexample :
    (stateAfter (SimInput.mk none none [] [] [] (some 6000) none).config 1).co2 0 0 =
      6000 ∧
    ¬ ((stateAfter (SimInput.mk none none [] [] [] (some 6000) none).config 1).co2 0 0 ≤
      5000) := by
  have hA : ∀ y, y < rows → ∀ x, x < cols →
      advect (initState (SimInput.mk none none [] [] [] (some 6000) none).config).co2
        (make2D 0) (make2D 0) y x = 6600 := by
    intro y hy x hx
    rw [advect_zero_vel _ y x hy hx]
    show (6000 : ℝ) + 600 = 6600
    norm_num
  have h : (stateAfter (SimInput.mk none none [] [] [] (some 6000) none).config 1).co2
      0 0 = 6000 := by
    show clamp
      (diffuse (advect
        (initState (SimInput.mk none none [] [] [] (some 6000) none).config).co2
        (make2D 0) (make2D 0)) 0 0) 6000 5000 = 6000
    have hd : diffuse (advect
        (initState (SimInput.mk none none [] [] [] (some 6000) none).config).co2
        (make2D 0) (make2D 0)) 0 0 = 6600 := by
      simp only [diffuse]
      norm_num [rows, cols]
      rw [hA 0 (by norm_num [rows]) 0 (by norm_num [cols]),
        hA 1 (by norm_num [rows]) 0 (by norm_num [cols]),
        hA 0 (by norm_num [rows]) 1 (by norm_num [cols])]
      norm_num [lerp, DIFF]
    rw [hd]
    norm_num [clamp]
  exact ⟨h, by rw [h]; norm_num⟩

/-- C2 amended: provided the outdoor CO2 baseline does not exceed 5000
    (true for the default 420), after every one of the 40 steps and in the
    final returned grid every cell satisfies co2 in [outdoorCO2, 5000],
    virus in [0, 1000] and temp in [-10, 40], enforced by the end-of-step
    clamp. -/
theorem c2_per_step_invariants (i : SimInput)
    (h5 : i.config.outdoorCO2 ≤ 5000) (t : ℕ) (ht1 : 1 ≤ t) (ht40 : t ≤ 40)
    (y x : ℕ) :
    (i.config.outdoorCO2 ≤ (stateAfter i.config t).co2 y x ∧
      (stateAfter i.config t).co2 y x ≤ 5000) ∧
    (0 ≤ (stateAfter i.config t).virus y x ∧
      (stateAfter i.config t).virus y x ≤ 1000) ∧
    ((-10 : ℝ) ≤ (stateAfter i.config t).temp y x ∧
      (stateAfter i.config t).temp y x ≤ 40) ∧
    (∀ row ∈ (simulate i).grid, ∀ cl ∈ row,
      (i.config.outdoorCO2 ≤ cl.co2 ∧ cl.co2 ≤ 5000) ∧
      (0 ≤ cl.virus ∧ cl.virus ≤ 1000) ∧
      ((-10 : ℝ) ≤ cl.temp ∧ cl.temp ≤ 40)) := by
  obtain ⟨t', rfl⟩ : ∃ t', t = t' + 1 := ⟨t - 1, by omega⟩
  obtain ⟨vc, hvc⟩ := stepSim_co2_clamp i.config (stateAfter i.config t') y x
  obtain ⟨vv, hvv⟩ := stepSim_virus_clamp i.config (stateAfter i.config t') y x
  obtain ⟨vt, hvt⟩ := stepSim_temp_clamp i.config (stateAfter i.config t') y x
  have hstep : stateAfter i.config (t' + 1) = stepSim i.config (stateAfter i.config t') :=
    rfl
  refine ⟨⟨?_, ?_⟩, ⟨?_, ?_⟩, ⟨?_, ?_⟩, ?_⟩
  · rw [hstep, hvc]; exact lo_le_clamp _ _ _
  · rw [hstep, hvc]; exact clamp_le_hi _ _ _ h5
  · rw [hstep, hvv]; exact lo_le_clamp _ _ _
  · rw [hstep, hvv]; exact clamp_le_hi _ _ _ (by norm_num)
  · rw [hstep, hvt]; exact lo_le_clamp _ _ _
  · rw [hstep, hvt]; exact clamp_le_hi _ _ _ (by norm_num)
  · intro row hrow cl hcl
    simp only [simulate, simulateCore, List.mem_map] at hrow
    obtain ⟨y1, hy1, rfl⟩ := hrow
    simp only [List.mem_map] at hcl
    obtain ⟨x1, hx1, rfl⟩ := hcl
    obtain ⟨wc, hwc⟩ := stepSim_co2_clamp i.config (stateAfter i.config 39) y1 x1
    obtain ⟨wv, hwv⟩ := stepSim_virus_clamp i.config (stateAfter i.config 39) y1 x1
    obtain ⟨wt, hwt⟩ := stepSim_temp_clamp i.config (stateAfter i.config 39) y1 x1
    have hstep40 : stateAfter i.config STEPS = stepSim i.config (stateAfter i.config 39) :=
      rfl
    refine ⟨⟨?_, ?_⟩, ⟨?_, ?_⟩, ?_, ?_⟩
    · show i.config.outdoorCO2 ≤ (stateAfter i.config STEPS).co2 y1 x1
      rw [hstep40, hwc]; exact lo_le_clamp _ _ _
    · show (stateAfter i.config STEPS).co2 y1 x1 ≤ 5000
      rw [hstep40, hwc]; exact clamp_le_hi _ _ _ h5
    · show (0 : ℝ) ≤ (stateAfter i.config STEPS).virus y1 x1
      rw [hstep40, hwv]; exact lo_le_clamp _ _ _
    · show (stateAfter i.config STEPS).virus y1 x1 ≤ 1000
      rw [hstep40, hwv]; exact clamp_le_hi _ _ _ (by norm_num)
    · show (-10 : ℝ) ≤ (stateAfter i.config STEPS).temp y1 x1
      rw [hstep40, hwt]; exact lo_le_clamp _ _ _
    · show (stateAfter i.config STEPS).temp y1 x1 ≤ 40
      rw [hstep40, hwt]; exact clamp_le_hi _ _ _ (by norm_num)

/-- Witness for C2 (amended): the default input (outdoor co2 420 ≤ 5000)
    after step 1 at cell (0, 0). -/
theorem c2_per_step_invariants_witness :
    (SimInput.mk none none [] [] [] none none).config.outdoorCO2 ≤ 5000 ∧
    (1 : ℕ) ≤ 1 ∧ (1 : ℕ) ≤ 40 ∧
    (0 : ℝ) ≤ (stateAfter (SimInput.mk none none [] [] [] none none).config 1).virus 0 0 := by
  have h5 : (SimInput.mk none none [] [] [] none none).config.outdoorCO2 ≤ 5000 := by
    norm_num [SimInput.config, CO2_LIMITS_outdoor]
  exact ⟨h5, le_refl 1, by norm_num,
    (c2_per_step_invariants (SimInput.mk none none [] [] [] none none) h5 1
      (le_refl 1) (by norm_num) 0 0).2.1.1⟩

theorem applyOccupants_single_co2 (w h : ℝ) (p : Occupant ℝ) (fs : Fields3 ℝ)
    (y x : ℕ) :
    (applyOccupants w h [p] fs).co2 y x = fs.co2 y x +
      CO2_EMIT * occIntensity p *
        Real.exp (-(((x : ℝ) - pxToGX w p.x) * ((x : ℝ) - pxToGX w p.x) +
          ((y : ℝ) - pxToGY h p.y) * ((y : ℝ) - pxToGY h p.y)) / 10) := rfl

theorem applyOccupants_single_virus (w h : ℝ) (p : Occupant ℝ) (fs : Fields3 ℝ)
    (y x : ℕ) :
    (applyOccupants w h [p] fs).virus y x = fs.virus y x +
      VIRUS_EMIT * occIntensity p *
        Real.exp (-(((x : ℝ) - pxToGX w p.x) * ((x : ℝ) - pxToGX w p.x) +
          ((y : ℝ) - pxToGY h p.y) * ((y : ℝ) - pxToGY h p.y)) / 10) := rfl

theorem applyOccupants_single_temp (w h : ℝ) (p : Occupant ℝ) (fs : Fields3 ℝ)
    (y x : ℕ) :
    (applyOccupants w h [p] fs).temp y x = fs.temp y x +
      HEAT_EMIT * occIntensity p *
        Real.exp (-(((x : ℝ) - pxToGX w p.x) * ((x : ℝ) - pxToGX w p.x) +
          ((y : ℝ) - pxToGY h p.y) * ((y : ℝ) - pxToGY h p.y)) / 10) := rfl

/-- The concrete scenario input of C8: an 800 x 500 room, no fans, no
    windows, a single occupant at (400, 250) with intensity 1, default
    outdoor baseline. -/
noncomputable def c8input : SimInput :=
  SimInput.mk (some 800) (some 500) [] [] [Occupant.mk 400 250 (some 1)] none none

theorem c8_occIntensity : occIntensity (Occupant.mk (400 : ℝ) 250 (some 1)) = 1 := by
  show clamp 1 0.2 3.0 = 1
  rw [clamp_eq_self _ _ _ (by norm_num) (by norm_num)]

theorem c8_step_co2 (s : Fields3 ℝ) (y x : ℕ) :
    (stepSim c8input.config s).co2 y x =
      clamp (diffuse (advect s.co2 (make2D 0) (make2D 0)) y x +
        CO2_EMIT * occIntensity (Occupant.mk 400 250 (some 1)) *
          Real.exp (-(((x : ℝ) - pxToGX 800 400) * ((x : ℝ) - pxToGX 800 400) +
            ((y : ℝ) - pxToGY 500 250) * ((y : ℝ) - pxToGY 500 250)) / 10))
        420 5000 := rfl

theorem c8_step_virus (s : Fields3 ℝ) (y x : ℕ) :
    (stepSim c8input.config s).virus y x =
      clamp (diffuse (advect s.virus (make2D 0) (make2D 0)) y x +
        VIRUS_EMIT * occIntensity (Occupant.mk 400 250 (some 1)) *
          Real.exp (-(((x : ℝ) - pxToGX 800 400) * ((x : ℝ) - pxToGX 800 400) +
            ((y : ℝ) - pxToGY 500 250) * ((y : ℝ) - pxToGY 500 250)) / 10))
        0 1000 := rfl

theorem c8_step_temp (s : Fields3 ℝ) (y x : ℕ) :
    (stepSim c8input.config s).temp y x =
      clamp (diffuse (advect s.temp (make2D 0) (make2D 0)) y x +
        HEAT_EMIT * occIntensity (Occupant.mk 400 250 (some 1)) *
          Real.exp (-(((x : ℝ) - pxToGX 800 400) * ((x : ℝ) - pxToGX 800 400) +
            ((y : ℝ) - pxToGY 500 250) * ((y : ℝ) - pxToGY 500 250)) / 10))
        (-10) 40 := rfl

/-- Weak per-step invariant for the C8 scenario: co2 never drops below the
    seed 1020, virus stays nonnegative and temp never drops below 21. -/
theorem c8_invariant (t : ℕ) :
    (∀ y, y < rows → ∀ x, x < cols →
      (1020 : ℝ) ≤ (stateAfter c8input.config t).co2 y x) ∧
    (∀ y, y < rows → ∀ x, x < cols →
      (0 : ℝ) ≤ (stateAfter c8input.config t).virus y x) ∧
    (∀ y, y < rows → ∀ x, x < cols →
      (21 : ℝ) ≤ (stateAfter c8input.config t).temp y x) := by
  induction t with
  | zero =>
    refine ⟨?_, ?_, ?_⟩ <;> intro y hy x hx
    · show (1020 : ℝ) ≤ 420 + 600
      norm_num
    · exact le_refl 0
    · exact le_refl 21
  | succ t ih =>
    obtain ⟨ih1, ih2, ih3⟩ := ih
    have hd1 : ∀ y, y < rows → ∀ x, x < cols → (1020 : ℝ) ≤
        diffuse (advect (stateAfter c8input.config t).co2 (make2D 0) (make2D 0)) y x := by
      intro y hy x hx
      refine diffuse_le _ _ ?_ y x hy hx
      intro y1 hy1 x1 hx1
      rw [advect_zero_vel _ y1 x1 hy1 hx1]
      exact ih1 y1 hy1 x1 hx1
    have hd2 : ∀ y, y < rows → ∀ x, x < cols → (0 : ℝ) ≤
        diffuse (advect (stateAfter c8input.config t).virus (make2D 0) (make2D 0)) y x := by
      intro y hy x hx
      refine diffuse_le _ _ ?_ y x hy hx
      intro y1 hy1 x1 hx1
      rw [advect_zero_vel _ y1 x1 hy1 hx1]
      exact ih2 y1 hy1 x1 hx1
    have hd3 : ∀ y, y < rows → ∀ x, x < cols → (21 : ℝ) ≤
        diffuse (advect (stateAfter c8input.config t).temp (make2D 0) (make2D 0)) y x := by
      intro y hy x hx
      refine diffuse_le _ _ ?_ y x hy hx
      intro y1 hy1 x1 hx1
      rw [advect_zero_vel _ y1 x1 hy1 hx1]
      exact ih3 y1 hy1 x1 hx1
    have hstep : stateAfter c8input.config (t + 1) =
        stepSim c8input.config (stateAfter c8input.config t) := rfl
    refine ⟨?_, ?_, ?_⟩ <;> intro y hy x hx
    · rw [hstep, c8_step_co2, c8_occIntensity]
      refine le_clamp_of_le _ _ _ _ ?_ (by norm_num)
      have he := Real.exp_pos (-(((x : ℝ) - pxToGX 800 400) * ((x : ℝ) - pxToGX 800 400) +
        ((y : ℝ) - pxToGY 500 250) * ((y : ℝ) - pxToGY 500 250)) / 10)
      have hD := hd1 y hy x hx
      rw [CO2_EMIT]
      linarith
    · rw [hstep, c8_step_virus, c8_occIntensity]
      refine le_clamp_of_le _ _ _ _ ?_ (by norm_num)
      have he := Real.exp_pos (-(((x : ℝ) - pxToGX 800 400) * ((x : ℝ) - pxToGX 800 400) +
        ((y : ℝ) - pxToGY 500 250) * ((y : ℝ) - pxToGY 500 250)) / 10)
      have hD := hd2 y hy x hx
      rw [VIRUS_EMIT]
      linarith
    · rw [hstep, c8_step_temp, c8_occIntensity]
      refine le_clamp_of_le _ _ _ _ ?_ (by norm_num)
      have he := Real.exp_pos (-(((x : ℝ) - pxToGX 800 400) * ((x : ℝ) - pxToGX 800 400) +
        ((y : ℝ) - pxToGY 500 250) * ((y : ℝ) - pxToGY 500 250)) / 10)
      have hD := hd3 y hy x hx
      rw [HEAT_EMIT]
      linarith

/-- Strict bounds at the end of the C8 run: after the 40th step co2 is
    strictly above the 1020 seed, virus is strictly positive, and both
    respect their clamp upper bounds. -/
theorem c8_final_bounds :
    (∀ y, y < rows → ∀ x, x < cols →
      (1020 : ℝ) < (stateAfter c8input.config STEPS).co2 y x ∧
      (stateAfter c8input.config STEPS).co2 y x ≤ 5000) ∧
    (∀ y, y < rows → ∀ x, x < cols →
      (0 : ℝ) < (stateAfter c8input.config STEPS).virus y x) ∧
    (∀ y, y < rows → ∀ x, x < cols →
      (21 : ℝ) ≤ (stateAfter c8input.config STEPS).temp y x) := by
  obtain ⟨ih1, ih2, ih3⟩ := c8_invariant 39
  have hstep : stateAfter c8input.config STEPS =
      stepSim c8input.config (stateAfter c8input.config 39) := rfl
  refine ⟨?_, ?_, ?_⟩ <;> intro y hy x hx
  · have hD : (1020 : ℝ) ≤
        diffuse (advect (stateAfter c8input.config 39).co2 (make2D 0) (make2D 0)) y x := by
      refine diffuse_le _ _ ?_ y x hy hx
      intro y1 hy1 x1 hx1
      rw [advect_zero_vel _ y1 x1 hy1 hx1]
      exact ih1 y1 hy1 x1 hx1
    have he := Real.exp_pos (-(((x : ℝ) - pxToGX 800 400) * ((x : ℝ) - pxToGX 800 400) +
      ((y : ℝ) - pxToGY 500 250) * ((y : ℝ) - pxToGY 500 250)) / 10)
    constructor
    · rw [hstep, c8_step_co2, c8_occIntensity]
      refine lt_clamp_of_lt _ _ _ _ ?_ (by norm_num)
      rw [CO2_EMIT]
      linarith
    · rw [hstep, c8_step_co2]
      exact clamp_le_hi _ _ _ (by norm_num)
  · have hD : (0 : ℝ) ≤
        diffuse (advect (stateAfter c8input.config 39).virus (make2D 0) (make2D 0)) y x := by
      refine diffuse_le _ _ ?_ y x hy hx
      intro y1 hy1 x1 hx1
      rw [advect_zero_vel _ y1 x1 hy1 hx1]
      exact ih2 y1 hy1 x1 hx1
    have he := Real.exp_pos (-(((x : ℝ) - pxToGX 800 400) * ((x : ℝ) - pxToGX 800 400) +
      ((y : ℝ) - pxToGY 500 250) * ((y : ℝ) - pxToGY 500 250)) / 10)
    rw [hstep, c8_step_virus, c8_occIntensity]
    refine lt_clamp_of_lt _ _ _ _ ?_ (by norm_num)
    rw [VIRUS_EMIT]
    linarith
  · have hD : (21 : ℝ) ≤
        diffuse (advect (stateAfter c8input.config 39).temp (make2D 0) (make2D 0)) y x := by
      refine diffuse_le _ _ ?_ y x hy hx
      intro y1 hy1 x1 hx1
      rw [advect_zero_vel _ y1 x1 hy1 hx1]
      exact ih3 y1 hy1 x1 hx1
    have he := Real.exp_pos (-(((x : ℝ) - pxToGX 800 400) * ((x : ℝ) - pxToGX 800 400) +
      ((y : ℝ) - pxToGY 500 250) * ((y : ℝ) - pxToGY 500 250)) / 10)
    rw [hstep, c8_step_temp, c8_occIntensity]
    refine le_clamp_of_le _ _ _ _ ?_ (by norm_num)
    rw [HEAT_EMIT]
    linarith

theorem const_mul_lt_gridSum (f : Field2 ℝ) (lo : ℝ)
    (h : ∀ y, y < rows → ∀ x, x < cols → lo < f y x) :
    lo * ((rows : ℝ) * (cols : ℝ)) < gridSum f := by
  have hinner : ∀ y ∈ Finset.range rows,
      lo * (cols : ℝ) < Finset.sum (Finset.range cols) (fun x => f y x) := by
    intro y hy
    have hlt : Finset.sum (Finset.range cols) (fun _ => lo) <
        Finset.sum (Finset.range cols) (fun x => f y x) :=
      Finset.sum_lt_sum_of_nonempty
        (Finset.nonempty_range_iff.mpr (by norm_num [cols]))
        (fun x hx => h y (Finset.mem_range.mp hy) x (Finset.mem_range.mp hx))
    calc lo * (cols : ℝ) = Finset.sum (Finset.range cols) (fun _ => lo) := by
          rw [Finset.sum_const, Finset.card_range, nsmul_eq_mul]; ring
      _ < _ := hlt
  have houter : Finset.sum (Finset.range rows) (fun _ => lo * (cols : ℝ)) <
      Finset.sum (Finset.range rows)
        (fun y => Finset.sum (Finset.range cols) (fun x => f y x)) :=
    Finset.sum_lt_sum_of_nonempty
      (Finset.nonempty_range_iff.mpr (by norm_num [rows])) hinner
  calc lo * ((rows : ℝ) * (cols : ℝ)) =
      Finset.sum (Finset.range rows) (fun _ => lo * (cols : ℝ)) := by
        rw [Finset.sum_const, Finset.card_range, nsmul_eq_mul]; ring
    _ < gridSum f := houter

theorem const_mul_le_gridSum (f : Field2 ℝ) (lo : ℝ)
    (h : ∀ y, y < rows → ∀ x, x < cols → lo ≤ f y x) :
    lo * ((rows : ℝ) * (cols : ℝ)) ≤ gridSum f := by
  have hinner : ∀ y ∈ Finset.range rows,
      lo * (cols : ℝ) ≤ Finset.sum (Finset.range cols) (fun x => f y x) := by
    intro y hy
    have hle : Finset.sum (Finset.range cols) (fun _ => lo) ≤
        Finset.sum (Finset.range cols) (fun x => f y x) :=
      Finset.sum_le_sum
        (fun x hx => h y (Finset.mem_range.mp hy) x (Finset.mem_range.mp hx))
    calc lo * (cols : ℝ) = Finset.sum (Finset.range cols) (fun _ => lo) := by
          rw [Finset.sum_const, Finset.card_range, nsmul_eq_mul]; ring
      _ ≤ _ := hle
  calc lo * ((rows : ℝ) * (cols : ℝ)) =
      Finset.sum (Finset.range rows) (fun _ => lo * (cols : ℝ)) := by
        rw [Finset.sum_const, Finset.card_range, nsmul_eq_mul]; ring
    _ ≤ gridSum f := Finset.sum_le_sum hinner

theorem gridSum_le_const_mul (f : Field2 ℝ) (hi : ℝ)
    (h : ∀ y, y < rows → ∀ x, x < cols → f y x ≤ hi) :
    gridSum f ≤ hi * ((rows : ℝ) * (cols : ℝ)) := by
  have hinner : ∀ y ∈ Finset.range rows,
      Finset.sum (Finset.range cols) (fun x => f y x) ≤ hi * (cols : ℝ) := by
    intro y hy
    have hle : Finset.sum (Finset.range cols) (fun x => f y x) ≤
        Finset.sum (Finset.range cols) (fun _ => hi) :=
      Finset.sum_le_sum
        (fun x hx => h y (Finset.mem_range.mp hy) x (Finset.mem_range.mp hx))
    calc Finset.sum (Finset.range cols) (fun x => f y x) ≤
        Finset.sum (Finset.range cols) (fun _ => hi) := hle
      _ = hi * (cols : ℝ) := by
          rw [Finset.sum_const, Finset.card_range, nsmul_eq_mul]; ring
  calc gridSum f ≤ Finset.sum (Finset.range rows) (fun _ => hi * (cols : ℝ)) :=
      Finset.sum_le_sum hinner
    _ = hi * ((rows : ℝ) * (cols : ℝ)) := by
        rw [Finset.sum_const, Finset.card_range, nsmul_eq_mul]; ring

/-- C8: for the concrete input width 800, height 500, no fans, no windows,
    one occupant at (400, 250) with intensity 1 and the default outdoor
    baseline, after the 40-step run the returned stats satisfy
    avgCO2 in (1020, 5000], maxVirus > 0 and avgTemp ≥ 21. -/
theorem c8_concrete_scenario :
    1020 < (simulate c8input).stats.avgCO2 ∧
    (simulate c8input).stats.avgCO2 ≤ 5000 ∧
    0 < (simulate c8input).stats.maxVirus ∧
    21 ≤ (simulate c8input).stats.avgTemp := by
  obtain ⟨hco2, hvir, htemp⟩ := c8_final_bounds
  have havg : (simulate c8input).stats.avgCO2 =
      gridSum (stateAfter c8input.config STEPS).co2 / ((rows : ℝ) * (cols : ℝ)) := rfl
  have havgT : (simulate c8input).stats.avgTemp =
      gridSum (stateAfter c8input.config STEPS).temp / ((rows : ℝ) * (cols : ℝ)) := rfl
  have hmax : (simulate c8input).stats.maxVirus =
      maxFold 0 (cellList.map fun yx =>
        (stateAfter c8input.config STEPS).virus yx.1 yx.2) := rfl
  set s := stateAfter c8input.config STEPS with hs
  refine ⟨?_, ?_, ?_, ?_⟩
  · rw [havg, lt_div_iff₀ (by norm_num [rows, cols])]
    exact const_mul_lt_gridSum _ 1020 (fun y hy x hx => (hco2 y hy x hx).1)
  · rw [havg, div_le_iff₀ (by norm_num [rows, cols])]
    exact gridSum_le_const_mul _ 5000 (fun y hy x hx => (hco2 y hy x hx).2)
  · have hmem : ((0 : ℕ), (0 : ℕ)) ∈ cellList := by
      have : cellList = (List.range rows).flatMap
          (fun y => (List.range cols).map (fun x => (y, x))) := rfl
      rw [this]
      exact List.mem_flatMap.mpr ⟨0, List.mem_range.mpr (by norm_num [rows]),
        List.mem_map.mpr ⟨0, List.mem_range.mpr (by norm_num [cols]), rfl⟩⟩
    have hle : s.virus 0 0 ≤
        maxFold 0 (cellList.map fun yx => s.virus yx.1 yx.2) := by
      have h2 : s.virus 0 0 = (fun yx : ℕ × ℕ => s.virus yx.1 yx.2) ((0 : ℕ), (0 : ℕ)) := rfl
      rw [h2]
      exact mem_le_maxFold _ _ _ (List.mem_map_of_mem _ hmem)
    rw [hmax]
    exact lt_of_lt_of_le (hvir 0 (by norm_num [rows]) 0 (by norm_num [cols])) hle
  · rw [havgT, le_div_iff₀ (by norm_num [rows, cols])]
    exact const_mul_le_gridSum _ 21 htemp

end FlowState
